import Mathlib

/-!
Verification of the VolatiQ serving and training core.

The definitions below are a shallow embedding of the Python sources:
  - `src/api/app.py`   : input validation, health check, predict / explain handlers
  - `src/config.py`    : configured batch limit (MAX_PREDICTION_BATCH_SIZE = 1000)
  - `src/model/train.py` : feature pipeline, forward-volatility target, dataset prep

Serving-side values are modelled over ℚ (a float that is NaN or ±Inf is
represented explicitly); the training pipeline is modelled over ℝ, with a
pandas NaN cell represented as `none : Option ℝ`.  A cell's definedness in the
pipeline depends only on indices and lengths, never on the stored real number,
mirroring the source where NaN arises solely from `shift`/`diff`/rolling
warm-up.  Prices are real numbers; the embedding uses total real `log`, which
agrees with `np.log` on the positive prices the pipeline is meant for.
-/

namespace VolatiQ

/-! ## Serving side: floats as tagged values (src/api/app.py) -/

/-- A JSON/numpy scalar: a finite value, NaN, or a signed infinity. -/
inductive FloatVal where
  | val (q : ℚ)
  | nan
  | inf
  | ninf
deriving DecidableEq

/-- np.isnan/np.isinf combined check: true only for a finite value. -/
def FloatVal.isFinite : FloatVal → Bool
  | .val _ => true
  | _ => false

/-- The JSON value found under the request's "features" key.
`grid rows` is a (possibly ragged) list of numeric rows; `nonGrid` is any
other JSON value (a flat list, a scalar, deeper nesting, ...), which
`np.array` turns into an array of rank ≠ 2. -/
inductive FeaturesJson where
  | grid (rows : List (List FloatVal))
  | nonGrid

/-- A request body: `none` = absent/falsy body, `some none` = body without a
"features" key, `some (some v)` = body whose "features" value is `v`. -/
abbrev Request := Option (Option FeaturesJson)

/-- Outcome of `validate_features_input` (src/api/app.py:49-77), plus the
explanation-specific cap applied in `explain` (src/api/app.py:219-220).
Each error constructor corresponds to one distinct error message. -/
inductive VResult where
  | ok (rows : List (List FloatVal))
  | missingField       -- "Missing features in request"
  | shapeError         -- "Features must be a 2D array"
  | batchSizeError     -- "Batch size exceeds maximum of ..."
  | featureCountError  -- "Expected 5 features, got ..."
  | nonFiniteError     -- "Features contain NaN or infinite values"
  | formatError        -- except-branch: "Invalid features format: ..."
  | explainBatchError  -- "Maximum 10 samples allowed for explanations"
deriving DecidableEq

/-- All rows of the grid have the length of the first row, so `np.array`
produces a rank-2 array rather than raising on ragged input. -/
def rectangular (rows : List (List FloatVal)) : Bool :=
  match rows with
  | [] => true
  | r :: rs => rs.all (fun s => s.length = r.length)

/-- Shallow embedding of `validate_features_input` (src/api/app.py:49-77).
`maxBatch` is `config.MAX_PREDICTION_BATCH_SIZE` (src/config.py:30, default
1000).  An empty grid parses to a rank-1 array, hence the shape error; a
ragged grid makes `np.array` raise, landing in the except branch. -/
def validate_features_input (data : Request) (maxBatch : ℕ) : VResult :=
  match data with
  | none => .missingField
  | some none => .missingField
  | some (some .nonGrid) => .shapeError
  | some (some (.grid rows)) =>
    if !rectangular rows then .formatError
    else if rows.length = 0 then .shapeError
    else if maxBatch < rows.length then .batchSizeError
    else if (rows.headD []).length ≠ 5 then .featureCountError
    else if !(rows.all (fun r => r.all FloatVal.isFinite)) then .nonFiniteError
    else .ok rows

/-- The validation performed by the `explain` endpoint
(src/api/app.py:213-220): the generic validator at the inference limit 1000
first, and only after it fully succeeds the explanation-specific 10-row cap. -/
def explain_validate (data : Request) : VResult :=
  match validate_features_input data 1000 with
  | .ok rows => if 10 < rows.length then .explainBatchError else .ok rows
  | e => e

/-! ## Serving side: service context, health check, handlers -/

/-- The process-wide scaler and model.  `none` models the development-mode
state after a failed startup load, where using the artifact raises.  A loaded
artifact is a function on row-major matrices that may itself raise
(`Except.error`). -/
structure ServiceCtx where
  scaler : Option (List (List ℚ) → Except String (List (List ℚ)))
  model : Option (List (List ℚ) → Except String (List ℚ))

/-- The canned probe row used by the health check (src/api/app.py:131). -/
def probeVec : List ℚ := [1/100, 2/100, 100, 101, 50]

/-- The inner probe of `health_check` (src/api/app.py:131-137): transform
then predict on the probe row; a missing artifact makes the corresponding
attribute access raise, and any raised error yields `false`. -/
def probeWorks (s : ServiceCtx) : Bool :=
  match s.scaler, s.model with
  | some tr, some pr =>
    match (tr [probeVec]).bind pr with
    | .error _ => false
    | .ok _ => true
  | _, _ => false

/-- Shallow embedding of `health_check` (src/api/app.py:123-147):
`model_status && prediction_status`. -/
def health_check (s : ServiceCtx) : Bool :=
  (s.model.isSome && s.scaler.isSome) && probeWorks s

/-- Extract the rational from a finite float; validation guarantees
finiteness before this is reached. -/
def FloatVal.toRat : FloatVal → ℚ
  | .val q => q
  | _ => 0

/-- A validated batch as a plain rational matrix. -/
def toMatrix (rows : List (List FloatVal)) : List (List ℚ) :=
  rows.map (fun r => r.map FloatVal.toRat)

/-- Response classification of the predict / explain handlers.  `badRequest`
is the 400 path with the validator's message; `internalError` is the generic
500 "Internal server error during prediction/explanation" produced by the
catch-all except branch. -/
inductive HandlerResponse where
  | badRequest (e : VResult)
  | internalError
  | ok (preds : List ℚ)
deriving DecidableEq

/-- The numeric part shared by `predict` and `explain` once validation has
passed: transform, then predict.  A missing artifact makes the attribute
access raise, and the error from a raising transform precedes everything
else, exactly as in the sources; the catch-all except of both handlers turns
every raise into the one generic internal error. -/
def runModel (s : ServiceCtx) (rows : List (List FloatVal)) : HandlerResponse :=
  match s.scaler, s.model with
  | some tr, some pr =>
    match (tr (toMatrix rows)).bind pr with
    | .error _ => .internalError
    | .ok preds => .ok preds
  | _, _ => .internalError

/-- Shallow embedding of the `predict` handler (src/api/app.py:157-199). -/
def predict (s : ServiceCtx) (data : Request) : HandlerResponse :=
  match validate_features_input data 1000 with
  | .ok rows => runModel s rows
  | e => .badRequest e

/-- Shallow embedding of the error/response classification of the `explain`
handler (src/api/app.py:201-253).  The SHAP attribution values returned on
success come from the third-party `shap` library and are not modelled; only
the predictions and the failure classification are. -/
def explain_handler (s : ServiceCtx) (data : Request) : HandlerResponse :=
  match explain_validate data with
  | .ok rows => runModel s rows
  | e => .badRequest e

/-! ## Training side: feature pipeline (src/model/train.py) -/

/-- A dataframe cell: `none` models a pandas NaN. -/
abbrev Cell := Option ℝ

noncomputable section

/-- Sample standard deviation with pandas' default ddof = 1, applied to a
full rolling window. -/
def sampleStd (v : List ℝ) : ℝ :=
  let m := v.sum / (v.length : ℝ)
  Real.sqrt ((v.map (fun a => (a - m) ^ 2)).sum / ((v.length - 1 : ℕ) : ℝ))

/-- The trailing window of width `w` ending at position `t`. -/
def window (w : ℕ) (xs : List Cell) (t : ℕ) : List Cell :=
  (List.range w).map (fun j => xs.getD (t + 1 - w + j) none)

/-- One cell of a pandas rolling aggregation: defined only when the trailing
window `t+1-w .. t` lies inside the series and contains no NaN (min_periods
defaults to the window size). -/
def rollingCell (w : ℕ) (f : List ℝ → Cell) (xs : List Cell) (t : ℕ) : Cell :=
  if t + 1 < w then none
  else if (window w xs t).all Option.isSome then
    f ((window w xs t).map (fun o => o.getD 0))
  else none

/-- pandas `Series.rolling(window=w)` followed by an aggregation `f`. -/
def rollingApply (w : ℕ) (f : List ℝ → Cell) (xs : List Cell) : List Cell :=
  (List.range xs.length).map (rollingCell w f xs)

/-- `rolling(w).mean()`: with a full window the mean divides by `w`. -/
def rollingMean (w : ℕ) (xs : List Cell) : List Cell :=
  rollingApply w (fun v => some (v.sum / (w : ℝ))) xs

/-- `rolling(w).std()`: NaN for `w ≤ 1` (a single observation has no sample
standard deviation under ddof = 1). -/
def rollingStd (w : ℕ) (xs : List Cell) : List Cell :=
  rollingApply w (fun v => if w ≤ 1 then none else some (sampleStd v)) xs

/-- Column `log_return` (src/model/train.py:17):
`np.log(Close / Close.shift(1))`, NaN at the first bar. -/
def logReturnCol (c : List ℝ) : List Cell :=
  (List.range c.length).map (fun t =>
    if t = 0 then none else some (Real.log (c.getD t 0 / c.getD (t - 1) 0)))

/-- Column `volatility` (src/model/train.py:18):
rolling std of `log_return` over the trailing `horizon` window. -/
def volatilityCol (c : List ℝ) (h : ℕ) : List Cell :=
  rollingStd h (logReturnCol c)

/-- Column `ma_5` (src/model/train.py:19). -/
def ma5Col (c : List ℝ) : List Cell :=
  rollingMean 5 (c.map some)

/-- Column `ma_10` (src/model/train.py:20). -/
def ma10Col (c : List ℝ) : List Cell :=
  rollingMean 10 (c.map some)

/-- `delta.where(delta > 0, 0)` (src/model/train.py:23): the NaN first
delta fails the comparison and is replaced by 0, so the gain series has no
NaN at all. -/
def gainCol (c : List ℝ) : List ℝ :=
  (List.range c.length).map (fun t =>
    if t ≠ 0 ∧ 0 < c.getD t 0 - c.getD (t - 1) 0 then c.getD t 0 - c.getD (t - 1) 0 else 0)

/-- `-delta.where(delta < 0, 0)` (src/model/train.py:24); like the gains,
NaN-free. -/
def lossCol (c : List ℝ) : List ℝ :=
  (List.range c.length).map (fun t =>
    if t ≠ 0 ∧ c.getD t 0 - c.getD (t - 1) 0 < 0 then -(c.getD t 0 - c.getD (t - 1) 0) else 0)

/-- 14-bar rolling mean of gains (src/model/train.py:23). -/
def avgGainCol (c : List ℝ) : List Cell :=
  rollingMean 14 ((gainCol c).map some)

/-- 14-bar rolling mean of losses (src/model/train.py:24). -/
def avgLossCol (c : List ℝ) : List Cell :=
  rollingMean 14 ((lossCol c).map some)

/-- Column `rsi` (src/model/train.py:22-26): `rs = gain / (loss + 1e-9)`,
`rsi = 100 - 100 / (1 + rs)`.  Defined exactly when both rolling means are
(bar 13 onwards, since gains and losses themselves are NaN-free). -/
def rsiCol (c : List ℝ) : List Cell :=
  (List.range c.length).map (fun t =>
    match (avgGainCol c).getD t none, (avgLossCol c).getD t none with
    | some g, some l => some (100 - 100 / (1 + g / (l + 1 / 1000000000)))
    | _, _ => none)

/-- One row of the feature frame: the close price and the five derived
columns, each possibly NaN. -/
structure FRow where
  close : ℝ
  log_return : Cell
  volatility : Cell
  ma_5 : Cell
  ma_10 : Cell
  rsi : Cell

instance : Inhabited FRow := ⟨⟨0, none, none, none, none, none⟩⟩

/-- The feature-frame row at bar `t`, before any dropping. -/
def mkRow (c : List ℝ) (h : ℕ) (t : ℕ) : FRow :=
  ⟨c.getD t 0, (logReturnCol c).getD t none, (volatilityCol c h).getD t none,
    (ma5Col c).getD t none, (ma10Col c).getD t none, (rsiCol c).getD t none⟩

/-- The full feature frame, warm-up rows included. -/
def featureRows (c : List ℝ) (h : ℕ) : List FRow :=
  (List.range c.length).map (mkRow c h)

/-- The `df.dropna()` row predicate: every column of the row is defined
(the close itself is a plain number and never NaN). -/
def featOk (r : FRow) : Bool :=
  r.log_return.isSome && r.volatility.isSome && r.ma_5.isSome &&
    r.ma_10.isSome && r.rsi.isSome

/-- Shallow embedding of `compute_features` (src/model/train.py:11-29):
derive the five columns, then drop every row containing a NaN. -/
def compute_features (c : List ℝ) (h : ℕ) : List FRow :=
  (featureRows c h).filter featOk

/-- `np.log(Close.shift(-horizon) / Close)` (src/model/train.py:35): the
forward log return starting at bar `i`, NaN once the forward bar runs off
the end of the series. -/
def futureReturnsCol (c : List ℝ) (h : ℕ) : List Cell :=
  (List.range c.length).map (fun i =>
    if i + h < c.length then some (Real.log (c.getD (i + h) 0 / c.getD i 0)) else none)

/-- Shallow embedding of `compute_target` (src/model/train.py:31-37): the
trailing `horizon`-window rolling std of the forward returns. -/
def compute_target (c : List ℝ) (h : ℕ) : List Cell :=
  rollingStd h (futureReturnsCol c h)

/-- The rows surviving the second `dropna` of `prepare_data`
(src/model/train.py:42): feature rows joined by position with the target
column computed on the *filtered* close series, keeping a row only when
every feature column and the target are defined. -/
def keptPairs (c : List ℝ) (h : ℕ) : List (FRow × Cell) :=
  ((compute_features c h).zip
      (compute_target ((compute_features c h).map FRow.close) h)).filter
    (fun p => featOk p.1 && p.2.isSome)

/-- Shallow embedding of `prepare_data` (src/model/train.py:39-45): the
aligned feature matrix and target vector after both NaN drops. -/
def prepare_data (c : List ℝ) (h : ℕ) : List (List Cell) × List Cell :=
  ((keptPairs c h).map
      (fun p => [p.1.log_return, p.1.volatility, p.1.ma_5, p.1.ma_10, p.1.rsi]),
    (keptPairs c h).map (fun p => p.2))

end

/-! ## Basic lemmas about the pipeline combinators -/

theorem getD_map_range {α : Type} (n t : ℕ) (f : ℕ → α) (d : α) (ht : t < n) :
    ((List.range n).map f).getD t d = f t := by
  rw [List.getD_eq_getElem?_getD]
  simp [List.getElem?_map, List.getElem?_range, ht]

theorem length_rollingApply (w : ℕ) (f : List ℝ → Cell) (xs : List Cell) :
    (rollingApply w f xs).length = xs.length := by
  simp [rollingApply]

theorem length_futureReturnsCol (c : List ℝ) (h : ℕ) :
    (futureReturnsCol c h).length = c.length := by
  simp [futureReturnsCol]

theorem length_logReturnCol (c : List ℝ) :
    (logReturnCol c).length = c.length := by
  simp [logReturnCol]

theorem length_compute_target (c : List ℝ) (h : ℕ) :
    (compute_target c h).length = c.length := by
  rw [compute_target, rollingStd, length_rollingApply, length_futureReturnsCol]

theorem rollingApply_getD (w : ℕ) (f : List ℝ → Cell) (xs : List Cell) (t : ℕ)
    (ht : t < xs.length) :
    (rollingApply w f xs).getD t none = rollingCell w f xs t := by
  rw [rollingApply]
  exact getD_map_range _ _ _ _ ht

theorem futureReturnsCol_getD (c : List ℝ) (h i : ℕ) (hi : i < c.length) :
    (futureReturnsCol c h).getD i none =
      if i + h < c.length then some (Real.log (c.getD (i + h) 0 / c.getD i 0))
      else none := by
  rw [futureReturnsCol]
  exact getD_map_range _ _ _ _ hi

/-! ## C1: alignment of the forward-volatility target -/

/-- C1 counterexample: the target is not a function of bars t+1..t+horizon
only.  With horizon 2 and t = 1, two four-bar series agreeing on bars 2 and 3
(the claimed window) but differing at bar 0 get different targets at t = 1,
because the rolling window of forward returns ends at t instead of starting
after it. -/
theorem compute_target_uses_past_bars :
    ([(1:ℝ), 1, Real.exp 1, Real.exp 2].getD 2 0
        = [Real.exp 1, 1, Real.exp 1, Real.exp 2].getD 2 0) ∧
    ([(1:ℝ), 1, Real.exp 1, Real.exp 2].getD 3 0
        = [Real.exp 1, 1, Real.exp 1, Real.exp 2].getD 3 0) ∧
    (compute_target [(1:ℝ), 1, Real.exp 1, Real.exp 2] 2).getD 1 none ≠
      (compute_target [Real.exp 1, 1, Real.exp 1, Real.exp 2] 2).getD 1 none := by
  refine ⟨rfl, rfl, ?_⟩
  have hA : (compute_target [(1:ℝ), 1, Real.exp 1, Real.exp 2] 2).getD 1 none
      = some (sampleStd [Real.log (Real.exp 1 / 1), Real.log (Real.exp 2 / 1)]) := rfl
  have hB : (compute_target [Real.exp 1, 1, Real.exp 1, Real.exp 2] 2).getD 1 none
      = some (sampleStd [Real.log (Real.exp 1 / Real.exp 1), Real.log (Real.exp 2 / 1)]) := rfl
  rw [hA, hB]
  have hsA : sampleStd [Real.log (Real.exp 1 / 1), Real.log (Real.exp 2 / 1)]
      = Real.sqrt (1 / 2) := by
    simp [sampleStd, Real.log_exp]
    norm_num
  have hsB : sampleStd [Real.log (Real.exp 1 / Real.exp 1), Real.log (Real.exp 2 / 1)]
      = Real.sqrt 2 := by
    simp [sampleStd, Real.log_exp]
    norm_num
  rw [hsA, hsB]
  intro hEq
  have h2 := Option.some.inj hEq
  have h3 := (Real.sqrt_inj (by norm_num) (by norm_num)).mp h2
  norm_num at h3

/-- C1 amended: the target at row t is the rolling standard deviation of the
horizon-length window of forward returns *ending* at t, so it is determined
by bars t+1-horizon .. t+horizon — it reads bar t and up to horizon-1 bars
before t, not only bars after t. -/
theorem compute_target_depends_only_on_window (c₁ c₂ : List ℝ) (k t : ℕ)
    (hlen : c₁.length = c₂.length)
    (hagree : ∀ i, t + 1 - k ≤ i → i ≤ t + k → c₁.getD i 0 = c₂.getD i 0) :
    (compute_target c₁ k).getD t none = (compute_target c₂ k).getD t none := by
  by_cases htn : t < c₁.length
  · have htn2 : t < c₂.length := by omega
    rw [compute_target, compute_target, rollingStd, rollingStd,
      rollingApply_getD _ _ _ t (by rw [length_futureReturnsCol]; exact htn),
      rollingApply_getD _ _ _ t (by rw [length_futureReturnsCol]; exact htn2)]
    unfold rollingCell
    by_cases hw : t + 1 < k
    · rw [if_pos hw, if_pos hw]
    · rw [if_neg hw, if_neg hw]
      have hwin : window k (futureReturnsCol c₁ k) t
          = window k (futureReturnsCol c₂ k) t := by
        unfold window
        apply List.map_congr_left
        intro j hj
        have hjk : j < k := List.mem_range.mp hj
        have hi1 : t + 1 - k + j < c₁.length := by omega
        have hi2 : t + 1 - k + j < c₂.length := by omega
        rw [futureReturnsCol_getD _ _ _ hi1, futureReturnsCol_getD _ _ _ hi2, hlen]
        by_cases hc : t + 1 - k + j + k < c₂.length
        · rw [if_pos hc, if_pos hc,
            hagree (t + 1 - k + j) (by omega) (by omega),
            hagree (t + 1 - k + j + k) (by omega) (by omega)]
        · rw [if_neg hc, if_neg hc]
      rw [hwin]
  · have h1 : (compute_target c₁ k).length ≤ t := by rw [length_compute_target]; omega
    have h2 : (compute_target c₂ k).length ≤ t := by rw [length_compute_target]; omega
    rw [List.getD_eq_default _ _ h1, List.getD_eq_default _ _ h2]

/-- Witness for the amended C1 theorem at a concrete pair of five-bar series
agreeing on the window 1..4 around t = 2 (horizon 2) but differing at bar 0. -/
theorem compute_target_depends_only_on_window_witness :
    (∀ i, 2 + 1 - 2 ≤ i → i ≤ 2 + 2 →
      [(1:ℝ), 2, 3, 4, 5].getD i 0 = [(9:ℝ), 2, 3, 4, 5].getD i 0) ∧
    (compute_target [(1:ℝ), 2, 3, 4, 5] 2).getD 2 none
      = (compute_target [(9:ℝ), 2, 3, 4, 5] 2).getD 2 none := by
  have hag : ∀ i, 2 + 1 - 2 ≤ i → i ≤ 2 + 2 →
      [(1:ℝ), 2, 3, 4, 5].getD i 0 = [(9:ℝ), 2, 3, 4, 5].getD i 0 := by
    intro i h1 h2
    interval_cases i <;> rfl
  exact ⟨hag, compute_target_depends_only_on_window _ _ 2 2 rfl hag⟩

/-! ## C2: row count of the 30-bar, horizon-5 scenario -/

/-- The concrete 30-bar daily close series 1, 2, ..., 30. -/
noncomputable def closes30 : List ℝ :=
  (List.range 30).map (fun i => (i : ℝ) + 1)

/-- C2 counterexample: the 30-bar close series with horizon 5 does not yield
11 aligned feature/target rows. -/
theorem prepare_data_30_bars_not_11 :
    closes30.length = 30 ∧
      (prepare_data closes30 5).1.length ≠ 11 ∧
      (prepare_data closes30 5).2.length ≠ 11 := by
  have h1 : (prepare_data closes30 5).1.length = 8 := by rfl
  have h2 : (prepare_data closes30 5).2.length = 8 := by rfl
  exact ⟨rfl, by omega, by omega⟩

/-- C2 amended: the 30-bar close series with horizon 5 yields exactly 8
aligned rows, not 11.  The feature frame keeps 17 rows (the RSI warm-up
drops only the first 13 bars, because `where` turns the NaN first delta into
a zero gain/loss), and the forward target — computed on the already filtered
frame — is defined on 17 - 4 - 5 = 8 of them. -/
theorem prepare_data_30_bars_yields_8 :
    (compute_features closes30 5).length = 17 ∧
      (prepare_data closes30 5).1.length = 8 ∧
      (prepare_data closes30 5).2.length = 8 := by
  exact ⟨by rfl, by rfl, by rfl⟩

/-! ## C3: acceptance condition of the input validator -/

theorem rectangular_of_len5 (rows : List (List FloatVal))
    (h : ∀ r ∈ rows, r.length = 5) : rectangular rows = true := by
  cases rows with
  | nil => rfl
  | cons r rs =>
    simp only [rectangular, List.all_eq_true, decide_eq_true_eq]
    intro s hs
    rw [h s (List.mem_cons_of_mem r hs), h r (List.mem_cons_self r rs)]

theorem len5_of_rectangular (rows : List (List FloatVal)) (hne : rows ≠ [])
    (hrect : rectangular rows = true) (hhead : (rows.headD []).length = 5) :
    ∀ r ∈ rows, r.length = 5 := by
  cases rows with
  | nil => exact absurd rfl hne
  | cons r rs =>
    simp only [rectangular, List.all_eq_true, decide_eq_true_eq] at hrect
    simp only [List.headD_cons] at hhead
    intro s hs
    rcases List.mem_cons.mp hs with h | h
    · rw [h]; exact hhead
    · rw [hrect s h]; exact hhead

set_option maxRecDepth 8000 in
/-- C3: the validator accepts exactly the payloads whose features value is a
nonempty rectangular numeric grid with 5 entries per row, at most 1000 rows
and only finite entries; in particular a 1000-row batch is accepted and a
1001-row batch is rejected with the batch-size reason. -/
theorem validate_accepts_iff_and_boundary :
    (∀ (data : Request) (rows : List (List FloatVal)),
      validate_features_input data 1000 = .ok rows ↔
        data = some (some (.grid rows)) ∧ rows ≠ [] ∧ rows.length ≤ 1000 ∧
          (∀ r ∈ rows, r.length = 5) ∧
          (∀ r ∈ rows, ∀ x ∈ r, x.isFinite = true))
    ∧ validate_features_input
        (some (some (.grid (List.replicate 1000 (List.replicate 5 (FloatVal.val 0)))))) 1000
        = .ok (List.replicate 1000 (List.replicate 5 (FloatVal.val 0)))
    ∧ validate_features_input
        (some (some (.grid (List.replicate 1001 (List.replicate 5 (FloatVal.val 0)))))) 1000
        = .batchSizeError := by
  refine ⟨?_, by decide, by decide⟩
  intro data rows
  constructor
  · intro hok
    match data with
    | none => exact VResult.noConfusion hok
    | some none => exact VResult.noConfusion hok
    | some (some .nonGrid) => exact VResult.noConfusion hok
    | some (some (.grid rs)) =>
      simp only [validate_features_input] at hok
      split_ifs at hok with h1 h2 h3 h4 h5
      injection hok with hrows
      subst hrows
      have hrect : rectangular rs = true := by
        revert h1
        cases rectangular rs <;> simp
      have hne : rs ≠ [] := fun hnil => h2 (by rw [hnil]; rfl)
      refine ⟨rfl, hne, by omega, len5_of_rectangular rs hne hrect (by omega), ?_⟩
      have hall : rs.all (fun r => r.all FloatVal.isFinite) = true := by
        revert h5
        cases rs.all (fun r => r.all FloatVal.isFinite) <;> simp
      intro r hr x hx
      exact List.all_eq_true.mp (List.all_eq_true.mp hall r hr) x hx
  · rintro ⟨rfl, hne, hsize, hlen5, hfin⟩
    have hrect := rectangular_of_len5 rows hlen5
    have hhead : (rows.headD []).length = 5 := by
      cases rows with
      | nil => exact absurd rfl hne
      | cons r rs => exact hlen5 r (List.mem_cons_self r rs)
    have hall : rows.all (fun r => r.all FloatVal.isFinite) = true := by
      rw [List.all_eq_true]
      intro r hr
      rw [List.all_eq_true]
      intro x hx
      exact hfin r hr x hx
    simp only [validate_features_input]
    rw [if_neg (by rw [hrect]; simp),
      if_neg (fun h => hne (List.length_eq_zero.mp h)),
      if_neg (by omega), if_neg (by omega),
      if_neg (by rw [hall]; simp)]

/-! ## C4: rule order of the explanation validation -/

/-- An eleven-row batch whose rows have 4 entries instead of 5. -/
def elevenByFour : Request :=
  some (some (.grid (List.replicate 11 (List.replicate 4 (FloatVal.val 0)))))

/-- C4 counterexample: the explanation-specific 10-row cap does not run
third, before the feature-count rule — it runs only after the generic
validator fully succeeds.  An 11-row batch of 4-entry rows is rejected for
its feature count, not for its batch size. -/
theorem explain_validate_order_cex :
    explain_validate elevenByFour = .featureCountError ∧
      VResult.featureCountError ≠ VResult.explainBatchError ∧
      VResult.featureCountError ≠ VResult.batchSizeError := by
  refine ⟨by decide, by decide, by decide⟩

/-- C4 amended: the explanation endpoint first applies the five generic
rules in order (MissingField, Shape, BatchSize at the inference limit 1000,
FeatureCount, NonFinite) and applies the 10-row explanation cap only to
batches that pass all of them; a valid 10-row batch is accepted and a valid
11-row batch is rejected with the explanation batch-size reason. -/
theorem explain_validate_amended :
    (∀ (data : Request) (rows : List (List FloatVal)),
      explain_validate data = .ok rows ↔
        validate_features_input data 1000 = .ok rows ∧ rows.length ≤ 10)
    ∧ (∀ (data : Request) (rows : List (List FloatVal)),
        validate_features_input data 1000 = .ok rows → 10 < rows.length →
          explain_validate data = .explainBatchError)
    ∧ (∀ (data : Request) (e : VResult), validate_features_input data 1000 = e →
        (∀ rows, e ≠ .ok rows) → explain_validate data = e)
    ∧ explain_validate
        (some (some (.grid (List.replicate 10 (List.replicate 5 (FloatVal.val 0))))))
        = .ok (List.replicate 10 (List.replicate 5 (FloatVal.val 0)))
    ∧ explain_validate
        (some (some (.grid (List.replicate 11 (List.replicate 5 (FloatVal.val 0))))))
        = .explainBatchError := by
  refine ⟨?_, ?_, ?_, by decide, by decide⟩
  · intro data rows
    unfold explain_validate
    cases hv : validate_features_input data 1000 with
    | ok rs =>
      show (if 10 < rs.length then VResult.explainBatchError else VResult.ok rs)
          = VResult.ok rows ↔ VResult.ok rs = VResult.ok rows ∧ rows.length ≤ 10
      by_cases h10 : 10 < rs.length
      · rw [if_pos h10]
        constructor
        · intro h; exact VResult.noConfusion h
        · rintro ⟨hok, hlen⟩
          injection hok with hrows
          subst hrows
          omega
      · rw [if_neg h10]
        constructor
        · intro h
          injection h with hrows
          subst hrows
          exact ⟨rfl, by omega⟩
        · rintro ⟨hok, _⟩
          injection hok with hrows
          rw [hrows]
    | missingField => simp
    | shapeError => simp
    | batchSizeError => simp
    | featureCountError => simp
    | nonFiniteError => simp
    | formatError => simp
    | explainBatchError => simp
  · intro data rows hok h10
    unfold explain_validate
    rw [hok]
    show (if 10 < rows.length then VResult.explainBatchError else VResult.ok rows)
        = VResult.explainBatchError
    rw [if_pos h10]
  · intro data e hv hnotok
    unfold explain_validate
    rw [hv]
    cases e with
    | ok rs => exact absurd rfl (hnotok rs)
    | missingField => rfl
    | shapeError => rfl
    | batchSizeError => rfl
    | featureCountError => rfl
    | nonFiniteError => rfl
    | formatError => rfl
    | explainBatchError => rfl

/-- Witness for the amended C4 theorem: an 11-row valid batch, rejected with
the explanation batch-size reason by the post-validation cap. -/
theorem explain_validate_amended_witness :
    explain_validate
        (some (some (.grid (List.replicate 11 (List.replicate 5 (FloatVal.val 0))))))
      = .explainBatchError :=
  explain_validate_amended.2.1
    (some (some (.grid (List.replicate 11 (List.replicate 5 (FloatVal.val 0))))))
    (List.replicate 11 (List.replicate 5 (FloatVal.val 0)))
    (by decide) (by decide)

/-! ## C5: the health check -/

theorem except_bind_ok_iff {ε α β : Type} (x : Except ε α) (f : α → Except ε β)
    (y : β) : x.bind f = Except.ok y ↔ ∃ z, x = Except.ok z ∧ f z = Except.ok y := by
  cases x with
  | error e =>
    constructor
    · intro hb; exact Except.noConfusion hb
    · rintro ⟨z, hz, _⟩; exact Except.noConfusion hz
  | ok a =>
    constructor
    · intro hb; exact ⟨a, rfl, hb⟩
    · rintro ⟨z, hz, hfz⟩
      injection hz with hz
      rw [hz]; exact hfz

/-- C5: the health check reports healthy exactly when both artifacts are
loaded and the probe vector can be transformed and predicted without an
error being raised. -/
theorem health_check_healthy_iff (s : ServiceCtx) :
    health_check s = true ↔
      ∃ tr pr z y, s.scaler = some tr ∧ s.model = some pr ∧
        tr [probeVec] = Except.ok z ∧ pr z = Except.ok y := by
  have hhp : health_check s = probeWorks s := by
    unfold health_check probeWorks
    cases s.scaler <;> cases s.model <;> rfl
  rw [hhp]
  unfold probeWorks
  cases hsc : s.scaler with
  | none =>
    constructor
    · intro hh; exact Bool.noConfusion hh
    · rintro ⟨tr, pr, z, y, h1, _, _, _⟩; exact Option.noConfusion h1
  | some tr =>
    cases hm : s.model with
    | none =>
      constructor
      · intro hh; exact Bool.noConfusion hh
      · rintro ⟨tr2, pr, z, y, _, h2, _, _⟩; exact Option.noConfusion h2
    | some pr =>
      show (match (tr [probeVec]).bind pr with
        | Except.error _ => false
        | Except.ok _ => true) = true ↔ _
      constructor
      · intro hh
        cases hb : (tr [probeVec]).bind pr with
        | error msg => rw [hb] at hh; exact Bool.noConfusion hh
        | ok y =>
          obtain ⟨z, hz, hfz⟩ := (except_bind_ok_iff _ _ _).mp hb
          exact ⟨tr, pr, z, y, rfl, rfl, hz, hfz⟩
      · rintro ⟨tr2, pr2, z, y, h1, h2, htr, hpr⟩
        injection h1 with h1
        injection h2 with h2
        subst h1
        subst h2
        rw [(except_bind_ok_iff _ _ y).mpr ⟨z, htr, hpr⟩]

/-! ## C6: classification of requests when artifacts are missing -/

/-- A service context where neither artifact loaded at startup. -/
def unloadedCtx : ServiceCtx := ⟨none, none⟩

/-- A fully loaded context whose predictor raises on every batch, modelling
a per-request computation failure. -/
def failingCtx : ServiceCtx :=
  ⟨some (fun m => Except.ok m), some (fun _ => Except.error "bad input shape")⟩

/-- A valid one-row request. -/
def oneRowReq : Request :=
  some (some (.grid [[.val 0, .val 0, .val 0, .val 0, .val 0]]))

/-- C6 counterexample: with artifacts missing, a valid inference or
explanation request produces exactly the same generic internal-error
response as a per-request computation failure in a fully loaded service —
there is no distinct ServiceUnavailable classification. -/
theorem unloaded_same_as_compute_failure :
    predict unloadedCtx oneRowReq = HandlerResponse.internalError ∧
      predict failingCtx oneRowReq = HandlerResponse.internalError ∧
      explain_handler unloadedCtx oneRowReq = HandlerResponse.internalError ∧
      explain_handler failingCtx oneRowReq = HandlerResponse.internalError := by
  exact ⟨rfl, rfl, rfl, rfl⟩

/-- C6 amended: if the scaler or the model is absent, every request passing
validation fails — but with the generic internal-error classification shared
with per-request computation failures, not a distinct ServiceUnavailable
one. -/
theorem unloaded_requests_fail_generic (s : ServiceCtx) (data : Request)
    (rows : List (List FloatVal))
    (hun : s.scaler = none ∨ s.model = none)
    (hval : validate_features_input data 1000 = .ok rows) :
    predict s data = HandlerResponse.internalError ∧
      (explain_validate data = .ok rows →
        explain_handler s data = HandlerResponse.internalError) := by
  have hrun : runModel s rows = HandlerResponse.internalError := by
    rcases hun with h | h
    · unfold runModel
      rw [h]
    · unfold runModel
      rw [h]
      cases s.scaler <;> rfl
  constructor
  · unfold predict
    rw [hval]
    exact hrun
  · intro hev
    unfold explain_handler
    rw [hev]
    exact hrun

/-- Witness for the amended C6 theorem: the unloaded context and a valid
one-row request. -/
theorem unloaded_requests_fail_generic_witness :
    predict unloadedCtx oneRowReq = HandlerResponse.internalError ∧
      (explain_validate oneRowReq
          = .ok [[.val 0, .val 0, .val 0, .val 0, .val 0]] →
        explain_handler unloadedCtx oneRowReq = HandlerResponse.internalError) :=
  unloaded_requests_fail_generic unloadedCtx oneRowReq
    [[.val 0, .val 0, .val 0, .val 0, .val 0]] (Or.inl rfl) (by decide)

/-! ## C7: the prepared dataset contains no NaN -/

/-- C7: no row of the prepared dataset contains a NaN, in either the five
feature columns or the target column: both `dropna` calls together remove
every row in which any cell is undefined. -/
theorem prepare_data_no_nan (closes : List ℝ) (k : ℕ) (_hk : 1 ≤ k) :
    ((prepare_data closes k).1.all (fun row => row.all Option.isSome)
      && (prepare_data closes k).2.all Option.isSome) = true := by
  rw [Bool.and_eq_true, List.all_eq_true, List.all_eq_true]
  constructor
  · intro row hrow
    simp only [prepare_data] at hrow
    obtain ⟨p, hp, rfl⟩ := List.mem_map.mp hrow
    unfold keptPairs at hp
    have hkeep := (List.mem_filter.mp hp).2
    rw [Bool.and_eq_true] at hkeep
    obtain ⟨hfeat, hts⟩ := hkeep
    simp only [featOk, Bool.and_eq_true] at hfeat
    obtain ⟨⟨⟨⟨h1, h2⟩, h3⟩, h4⟩, h5⟩ := hfeat
    rw [List.all_eq_true]
    intro c hc
    simp only [List.mem_cons, List.not_mem_nil, or_false] at hc
    rcases hc with rfl | rfl | rfl | rfl | rfl
    · exact h1
    · exact h2
    · exact h3
    · exact h4
    · exact h5
  · intro tv htv
    simp only [prepare_data] at htv
    obtain ⟨p, hp, rfl⟩ := List.mem_map.mp htv
    unfold keptPairs at hp
    have hkeep := (List.mem_filter.mp hp).2
    rw [Bool.and_eq_true] at hkeep
    exact hkeep.2

/-- Witness for C7 at the concrete 30-bar series and horizon 5. -/
theorem prepare_data_no_nan_witness :
    1 ≤ 5 ∧
      ((prepare_data closes30 5).1.all (fun row => row.all Option.isSome)
        && (prepare_data closes30 5).2.all Option.isSome) = true :=
  ⟨by decide, prepare_data_no_nan closes30 5 (by decide)⟩

/-! ## C8: short price series yield an empty dataset -/

theorem length_gainCol (c : List ℝ) : (gainCol c).length = c.length := by
  simp [gainCol]

theorem length_lossCol (c : List ℝ) : (lossCol c).length = c.length := by
  simp [lossCol]

theorem rsiCol_getD_none (c : List ℝ) (t : ℕ) (ht : t < c.length) (h13 : t < 13) :
    (rsiCol c).getD t none = none := by
  unfold rsiCol
  rw [getD_map_range _ _ _ _ ht]
  have hg : (avgGainCol c).getD t none = none := by
    unfold avgGainCol rollingMean rollingApply
    rw [getD_map_range _ _ _ _
      (by rw [List.length_map, length_gainCol]; exact ht)]
    unfold rollingCell
    rw [if_pos (by omega : t + 1 < 14)]
  rw [hg]

theorem volatilityCol_getD_none (c : List ℝ) (k t : ℕ) (ht : t < c.length)
    (hlt : t < k) : (volatilityCol c k).getD t none = none := by
  unfold volatilityCol rollingStd rollingApply
  rw [getD_map_range _ _ _ _ (by rw [length_logReturnCol]; exact ht)]
  unfold rollingCell
  by_cases hw : t + 1 < k
  · rw [if_pos hw]
  · rw [if_neg hw]
    have h0 : (logReturnCol c).getD 0 none = none := by
      unfold logReturnCol
      rw [getD_map_range _ _ _ _ (by omega : 0 < c.length)]
      rw [if_pos rfl]
    have hmem : (none : Cell) ∈ window k (logReturnCol c) t := by
      unfold window
      refine List.mem_map.mpr ⟨0, List.mem_range.mpr (by omega), ?_⟩
      rw [show t + 1 - k + 0 = 0 by omega]
      exact h0
    cases hall : (window k (logReturnCol c) t).all Option.isSome with
    | false => simp
    | true => exact absurd (List.all_eq_true.mp hall none hmem) (by simp)

theorem featOk_rsi_bound (c : List ℝ) (k t : ℕ) (ht : t < c.length)
    (hfeat : featOk (mkRow c k t) = true) : 13 ≤ t := by
  by_contra hc
  push_neg at hc
  have hnone := rsiCol_getD_none c t ht hc
  simp only [featOk, mkRow, Bool.and_eq_true] at hfeat
  obtain ⟨_, h5⟩ := hfeat
  rw [hnone] at h5
  exact Bool.noConfusion h5

theorem featOk_vol_bound (c : List ℝ) (k t : ℕ) (ht : t < c.length)
    (hfeat : featOk (mkRow c k t) = true) : k ≤ t := by
  by_contra hc
  push_neg at hc
  have hnone := volatilityCol_getD_none c k t ht hc
  simp only [featOk, mkRow, Bool.and_eq_true] at hfeat
  obtain ⟨⟨⟨⟨_, h2⟩, _⟩, _⟩, _⟩ := hfeat
  rw [hnone] at h2
  exact Bool.noConfusion h2

theorem length_filter_map_range_le {α : Type} (n m : ℕ) (f : ℕ → α)
    (p : α → Bool) (hp : ∀ t, t < n → p (f t) = true → m ≤ t) :
    (((List.range n).map f).filter p).length ≤ n - m := by
  induction n with
  | zero => simp
  | succ j ih =>
    rw [List.range_succ, List.map_append, List.filter_append, List.length_append]
    have hj := ih (fun t ht hpt => hp t (by omega) hpt)
    by_cases hpj : p (f j) = true
    · have hmj := hp j (by omega) hpj
      have h1 : (List.filter p (List.map f [j])).length = 1 := by
        simp [hpj]
      omega
    · have h0 : (List.filter p (List.map f [j])).length = 0 := by
        rw [Bool.not_eq_true] at hpj
        simp [hpj]
      omega

theorem compute_features_length_le_13 (c : List ℝ) (k : ℕ) :
    (compute_features c k).length ≤ c.length - 13 := by
  unfold compute_features featureRows
  exact length_filter_map_range_le c.length 13 (mkRow c k) featOk
    (fun t ht hp => featOk_rsi_bound c k t ht hp)

theorem compute_features_length_le_horizon (c : List ℝ) (k : ℕ) :
    (compute_features c k).length ≤ c.length - k := by
  unfold compute_features featureRows
  exact length_filter_map_range_le c.length k (mkRow c k) featOk
    (fun t ht hp => featOk_vol_bound c k t ht hp)

theorem compute_target_all_none (c : List ℝ) (k : ℕ) (hk : 1 ≤ k)
    (hn : c.length < 2 * k) : ∀ x ∈ compute_target c k, x = none := by
  intro x hx
  unfold compute_target rollingStd rollingApply at hx
  obtain ⟨t, htm, rfl⟩ := List.mem_map.mp hx
  have ht : t < (futureReturnsCol c k).length := List.mem_range.mp htm
  rw [length_futureReturnsCol] at ht
  unfold rollingCell
  by_cases hw : t + 1 < k
  · rw [if_pos hw]
  · rw [if_neg hw]
    have hmem : (none : Cell) ∈ window k (futureReturnsCol c k) t := by
      unfold window
      refine List.mem_map.mpr ⟨k - 1, List.mem_range.mpr (by omega), ?_⟩
      rw [show t + 1 - k + (k - 1) = t by omega]
      rw [futureReturnsCol_getD c k t ht, if_neg (by omega)]
    cases hall : (window k (futureReturnsCol c k) t).all Option.isSome with
    | false => simp
    | true => exact absurd (List.all_eq_true.mp hall none hmem) (by simp)

/-- C8: for any horizon ≥ 1, a price series shorter than 14 + horizon bars
produces an empty dataset (and, the embedding being total, no error). -/
theorem prepare_data_short_series_empty (closes : List ℝ) (k : ℕ) (hk : 1 ≤ k)
    (hshort : closes.length < 14 + k) :
    prepare_data closes k = ([], []) := by
  have hb1 := compute_features_length_le_13 closes k
  have hb2 := compute_features_length_le_horizon closes k
  have hlen2 : ((compute_features closes k).map FRow.close).length < 2 * k := by
    rw [List.length_map]; omega
  have htargets := compute_target_all_none
    ((compute_features closes k).map FRow.close) k hk hlen2
  have hkept : keptPairs closes k = [] := by
    unfold keptPairs
    rw [List.filter_eq_nil_iff]
    intro p hp
    have hmem := (List.of_mem_zip hp).2
    have hnone := htargets p.2 hmem
    intro hcontra
    rw [Bool.and_eq_true] at hcontra
    rw [hnone] at hcontra
    exact Bool.noConfusion hcontra.2
  unfold prepare_data
  rw [hkept]
  rfl

/-- Witness for C8: a three-bar series with horizon 5. -/
theorem prepare_data_short_series_empty_witness :
    1 ≤ 5 ∧ [(1:ℝ), 2, 3].length < 14 + 5 ∧
      prepare_data [(1:ℝ), 2, 3] 5 = ([], []) :=
  ⟨by decide, by decide,
    prepare_data_short_series_empty [(1:ℝ), 2, 3] 5 (by decide) (by decide)⟩

/-! ## C10: compute_features does not mutate its input frame -/

noncomputable section

/-- A pandas DataFrame for this pipeline: the Close column plus the derived
columns, each `none` while the column has not been assigned. -/
structure PFrame where
  close : List ℝ
  log_return : Option (List Cell)
  volatility : Option (List Cell)
  ma_5 : Option (List Cell)
  ma_10 : Option (List Cell)
  rsi : Option (List Cell)

instance : Inhabited PFrame := ⟨⟨[], none, none, none, none, none⟩⟩

/-- The heap of live DataFrames; a frame reference is an index. -/
abbrev Store := List PFrame

/-- `df.copy()`: allocate a fresh frame with the same contents. -/
def stCopy (st : Store) (r : ℕ) : Store × ℕ :=
  (st ++ [st.getD r default], st.length)

/-- `df[col] = ...`: mutate the frame behind reference `r` in place. -/
def stSet (st : Store) (r : ℕ) (f : PFrame → PFrame) : Store :=
  st.set r (f (st.getD r default))

/-- Is the row at position `t` free of NaN in every *assigned* column?
(`df.dropna()` only looks at columns the frame actually has.) -/
def rowOk (fr : PFrame) (t : ℕ) : Bool :=
  (fr.log_return.elim true (fun col => (col.getD t none).isSome)) &&
    (fr.volatility.elim true (fun col => (col.getD t none).isSome)) &&
    (fr.ma_5.elim true (fun col => (col.getD t none).isSome)) &&
    (fr.ma_10.elim true (fun col => (col.getD t none).isSome)) &&
    (fr.rsi.elim true (fun col => (col.getD t none).isSome))

/-- `df.dropna()`: build a *new* frame keeping only the NaN-free rows; the
receiver is left untouched. -/
def dropnaFrame (fr : PFrame) : PFrame :=
  let keep := (List.range fr.close.length).filter (rowOk fr)
  ⟨keep.map (fun t => fr.close.getD t 0),
    fr.log_return.map (fun col => keep.map (fun t => col.getD t none)),
    fr.volatility.map (fun col => keep.map (fun t => col.getD t none)),
    fr.ma_5.map (fun col => keep.map (fun t => col.getD t none)),
    fr.ma_10.map (fun col => keep.map (fun t => col.getD t none)),
    fr.rsi.map (fun col => keep.map (fun t => col.getD t none))⟩

/-- Statement-by-statement embedding of `compute_features`
(src/model/train.py:11-29) over the frame heap: copy the argument frame,
assign the five derived columns on the copy (delta, gain, loss and rs are
plain local Series and touch no frame), rebind the local name to the result
of `dropna`, and return it together with the final heap. -/
def compute_features_prog (st : Store) (r : ℕ) (h : ℕ) : Store × PFrame :=
  let p := stCopy st r
  let st1 := p.1
  let rc := p.2
  let st2 := stSet st1 rc (fun fr => { fr with log_return := some (logReturnCol fr.close) })
  let st3 := stSet st2 rc (fun fr =>
    { fr with volatility := some (rollingStd h (fr.log_return.getD [])) })
  let st4 := stSet st3 rc (fun fr => { fr with ma_5 := some (rollingMean 5 (fr.close.map some)) })
  let st5 := stSet st4 rc (fun fr => { fr with ma_10 := some (rollingMean 10 (fr.close.map some)) })
  let st6 := stSet st5 rc (fun fr => { fr with rsi := some (rsiCol fr.close) })
  (st6, dropnaFrame (st6.getD rc default))

end

theorem set_append_singleton {α : Type} (l : List α) (a b : α) :
    (l ++ [a]).set l.length b = l ++ [b] := by
  induction l with
  | nil => rfl
  | cons x xs ih => simp [List.set, ih]

theorem getD_append_singleton {α : Type} [Inhabited α] (l : List α) (a : α) :
    (l ++ [a]).getD l.length default = a := by
  induction l with
  | nil => rfl
  | cons x xs ih => simp

/-- C10: running `compute_features` on a frame of the heap leaves every
pre-existing frame — in particular the caller's price history — unchanged:
all writes go to the `df.copy()` appended at the end of the heap, and the
frame returned is the filtered feature frame of the input's closes, matching
the pure `compute_features`. -/
theorem compute_features_prog_preserves_input (st : Store) (r k : ℕ) :
    ((compute_features_prog st r k).1).take st.length = st ∧
      (compute_features_prog st r k).2.close
        = (compute_features (st.getD r default).close k).map FRow.close := by
  unfold compute_features_prog stCopy stSet
  simp only [getD_append_singleton, set_append_singleton, Option.getD_some]
  constructor
  · exact List.take_left _ _
  · unfold dropnaFrame compute_features featureRows
    rw [List.filter_map, List.map_map]
    rfl

end VolatiQ
